import Mathlib

/-!
Verification development for the agi-hack-2025 repository (two Python HTTP
services: a podcast-generation service under `backend/` and a video-generation
service under `video-api/`).

The relevant Python functions are shallowly embedded as executable Lean
definitions.  Text is modelled as `List Char` (Python `str` is a sequence of
Unicode code points, exactly what `List Char` is); Python `float` durations are
modelled as exact rationals `ℚ` (every duration literal appearing in the code —
8.0, 15, 600.0 — is exactly representable, and no claim depends on rounding);
Python dicts used as JSON payloads are modelled by the inductive `PyJson`.
External provider calls (YouTube API, Gemini, Veo, TTS providers) are modelled
as function parameters supplying the provider outcome, since the claims are
about how the code combines those outcomes.
-/

namespace AgiHack

/-- Python `str` modelled as a list of Unicode code points. -/
abbrev Str := List Char

/-- Coerce a Lean string literal to the `Str` model. -/
def lit (s : String) : Str := s.data

/-- Whitespace characters stripped by Python `str.strip()` (its ASCII
whitespace set; every string manipulated by the claims is ASCII). -/
def isPySpace (c : Char) : Bool :=
  c = ' ' ∨ c = '\t' ∨ c = '\n' ∨ c = '\x0d' ∨ c = '\x0b' ∨ c = '\x0c'

/-- Python `str.strip()`: drop leading and trailing whitespace. -/
def pyStrip (s : Str) : Str :=
  ((s.dropWhile isPySpace).reverse.dropWhile isPySpace).reverse

/-- Python `len(s.encode('utf-8'))`: the UTF-8 byte length of a string. -/
def utf8Len (s : Str) : Nat :=
  (s.map Char.utf8Size).sum

/-- Python `str.lower()` restricted to ASCII case mapping (the strings the
code compares after lowering are ASCII). -/
def pyLower (s : Str) : Str :=
  s.map Char.toLower

/-! ## Scene generation (`video-api/app/services/scene_generator.py`)

`SceneGenerator.generate_scenes` parses the provider's JSON answer into
`SceneDescription` records, then force-overwrites every scene's `duration`
and reports `total_duration = len(scenes) * scene_duration`.  The provider
call and JSON decoding are abstracted into the already-parsed scene list
`parsed` (the value of `[SceneDescription(**s) for s in result.get('scenes', [])]`).
-/

/-- Model of the `SceneDescription` pydantic record
(`video-api/app/models/schemas.py`). -/
structure SceneDescription where
  scene_number : Int
  transcript_text : Str
  visual_prompt : Str
  duration : ℚ
  start_time : Option ℚ
deriving Repr, DecidableEq

/-- Model of the `SceneGenerationResponse` record. -/
structure SceneGenerationResponse where
  scenes : List SceneDescription
  total_duration : ℚ
deriving Repr, DecidableEq

/-- Model of the tail of `SceneGenerator.generate_scenes`
(`scene_generator.py`, lines 119-133): overwrite every parsed scene's
`duration` with the requested `scene_duration`, and set
`total_duration := len(scenes) * scene_duration`. -/
def generate_scenes (parsed : List SceneDescription) (scene_duration : ℚ) :
    SceneGenerationResponse :=
  let scenes := parsed.map (fun s => { s with duration := scene_duration })
  { scenes := scenes
    total_duration := scenes.length * scene_duration }

/-- C4: for every provider response (any parsed scene list, whatever durations
its scenes report), `generate_scenes` returns scenes whose `duration` field is
exactly the requested `scene_duration` for every scene, and `total_duration`
equals the number of scenes multiplied by `scene_duration`; in particular this
holds for the default `scene_duration = 8`. -/
theorem generate_scenes_forces_duration
    (parsed : List SceneDescription) (scene_duration : ℚ) :
    (∀ s ∈ (generate_scenes parsed scene_duration).scenes,
        s.duration = scene_duration) ∧
    (generate_scenes parsed scene_duration).total_duration =
      (generate_scenes parsed scene_duration).scenes.length * scene_duration ∧
    (∀ s ∈ (generate_scenes parsed 8).scenes, s.duration = 8) := by
  refine ⟨?_, ?_, ?_⟩
  · intro s hs
    simp only [generate_scenes, List.mem_map] at hs
    obtain ⟨t, _, rfl⟩ := hs
    rfl
  · simp [generate_scenes]
  · intro s hs
    simp only [generate_scenes, List.mem_map] at hs
    obtain ⟨t, _, rfl⟩ := hs
    rfl

/-! ## File-based cache (`backend/app/core/cache.py`)

`FileCache` keeps, per namespace, an in-memory key→hash dict persisted to an
index file, and one JSON file per entry named by the SHA-256 hex digest of the
cache key.  The model keeps both as association lists with Python-dict update
semantics; the hash function is an arbitrary parameter (`_hash_key` wraps
`hashlib.sha256(...).hexdigest()`, whose internals the claims do not depend
on).  `json.dump` followed by `json.load` is the identity up to payload
equivalence for JSON-serializable values, so the file store holds the payload
value directly. -/

/-- Python `str(n)` for a non-negative `int`: decimal digits, no leading
zeros, `"0"` for zero.  (`max_results` is non-negative: the HTTP layer
constrains it to `[1,50]`.) -/
def pyNatStr (n : Nat) : Str :=
  if n = 0 then ['0'] else ((Nat.digits 10 n).map Nat.digitChar).reverse

/-- Python dict lookup `d.get(k)` on an association-list model. -/
def assocGet (k : Str) : List (Str × α) → Option α
  | [] => none
  | (k1, v) :: rest => if k1 = k then some v else assocGet k rest

/-- Python dict update `d[k] = v` on an association-list model (replace in
place if the key exists, else append, preserving insertion order). -/
def assocSet (k : Str) (v : α) : List (Str × α) → List (Str × α)
  | [] => [(k, v)]
  | (k1, v1) :: rest =>
      if k1 = k then (k, v) :: rest else (k1, v1) :: assocSet k v rest

/-- Content of one search-cache file: the dict
`{"query", "max_results", "cached_at", "results"}` written by
`set_search_results` (`cache.py`, lines 139-144). -/
structure SearchCacheFile (α : Type) where
  query : Str
  max_results : Nat
  cached_at : Str
  results : α

/-- State of the search namespace of `FileCache`: the in-memory
`search_hashmap` (logical key → file hash) and the files on disk under
`searches/` (file name → parsed content). -/
structure SearchCache (α : Type) where
  hashmap : List (Str × Str)
  files : List (Str × SearchCacheFile α)

/-- A freshly initialized cache with no entries. -/
def emptySearchCache : SearchCache α := ⟨[], []⟩

/-- Cache key `f"{query}:{max_results}"` (`cache.py`, lines 105 and 133). -/
def searchCacheKey (query : Str) (max_results : Nat) : Str :=
  query ++ ':' :: pyNatStr max_results

/-- Model of `FileCache.set_search_results` (`cache.py`, lines 124-154):
write the payload dict to the hash-named file, then record the key→hash pair
in the in-memory hashmap.  `hash` models `_hash_key`, `now` the
`datetime.utcnow().isoformat()` timestamp. -/
def set_search_results (hash : Str → Str) (now : Str) (st : SearchCache α)
    (query : Str) (results : α) (max_results : Nat) : SearchCache α :=
  let key := searchCacheKey query max_results
  let file := hash key ++ lit ".json"
  { hashmap := assocSet key (hash key) st.hashmap
    files := assocSet file ⟨query, max_results, now, results⟩ st.files }

/-- Model of `FileCache.get_search_results` (`cache.py`, lines 94-122): if the
cache key is present in the in-memory hashmap and the hash-named file exists,
return the file's `results` field; otherwise report a miss (`None`). -/
def get_search_results (hash : Str → Str) (st : SearchCache α)
    (query : Str) (max_results : Nat) : Option α :=
  let key := searchCacheKey query max_results
  let file := hash key ++ lit ".json"
  if (assocGet key st.hashmap).isSome then
    match assocGet file st.files with
    | some data => some data.results
    | none => none
  else
    none

theorem assocGet_assocSet_self (k : Str) (v : α) (l : List (Str × α)) :
    assocGet k (assocSet k v l) = some v := by
  induction l with
  | nil => simp [assocSet, assocGet]
  | cons p rest ih =>
      obtain ⟨k1, v1⟩ := p
      by_cases h : k1 = k <;> simp [assocSet, assocGet, h, ih]

theorem digitChar_inj_lt_ten :
    ∀ d1 < 10, ∀ d2 < 10, Nat.digitChar d1 = Nat.digitChar d2 → d1 = d2 := by
  decide

theorem map_digitChar_inj :
    ∀ l1 l2 : List Nat, (∀ d ∈ l1, d < 10) → (∀ d ∈ l2, d < 10) →
      l1.map Nat.digitChar = l2.map Nat.digitChar → l1 = l2 := by
  intro l1
  induction l1 with
  | nil => intro l2 _ _ h; cases l2 <;> simp_all
  | cons d rest ih =>
      intro l2 h1 h2 h
      cases l2 with
      | nil => simp_all
      | cons d2 rest2 =>
          simp only [List.map_cons, List.cons.injEq] at h
          have hd : d = d2 :=
            digitChar_inj_lt_ten d (h1 d (by simp)) d2 (h2 d2 (by simp)) h.1
          have hr : rest = rest2 :=
            ih rest2 (fun x hx => h1 x (by simp [hx]))
              (fun x hx => h2 x (by simp [hx])) h.2
          simp [hd, hr]

theorem pyNatStr_inj : ∀ m n : Nat, pyNatStr m = pyNatStr n → m = n := by
  have single : ∀ k : Nat, k ≠ 0 →
      ((Nat.digits 10 k).map Nat.digitChar).reverse = ['0'] → False := by
    intro k hk h
    have h2 : (Nat.digits 10 k).map Nat.digitChar = ['0'] := by
      have := congrArg List.reverse h
      simpa using this
    have hd : Nat.digits 10 k = [0] := by
      cases hdig : Nat.digits 10 k with
      | nil => simp [hdig] at h2
      | cons d rest =>
          rw [hdig] at h2
          cases rest with
          | nil =>
              simp only [List.map_cons, List.map_nil, List.cons.injEq] at h2
              have hlt : d < 10 :=
                Nat.digits_lt_base (b := 10) (m := k) (by norm_num)
                  (by rw [hdig]; simp)
              have : d = 0 := digitChar_inj_lt_ten d hlt 0 (by norm_num) h2.1
              simp [this]
          | cons e rest2 => simp at h2
    have := Nat.ofDigits_digits 10 k
    rw [hd] at this
    simp [Nat.ofDigits_cons, Nat.ofDigits_nil] at this
    exact hk this.symm
  intro m n h
  by_cases hm : m = 0 <;> by_cases hn : n = 0
  · simp [hm, hn]
  · exact absurd (by simpa [pyNatStr, hm, hn] using h.symm) (fun h2 => single n hn h2)
  · exact absurd (by simpa [pyNatStr, hm, hn] using h) (fun h2 => single m hm h2)
  · simp only [pyNatStr, hm, hn, if_false] at h
    have h2 : (Nat.digits 10 m).map Nat.digitChar =
        (Nat.digits 10 n).map Nat.digitChar := by
      have := congrArg List.reverse h
      simpa using this
    have hd : Nat.digits 10 m = Nat.digits 10 n :=
      map_digitChar_inj _ _
        (fun d hd => Nat.digits_lt_base (by norm_num) hd)
        (fun d hd => Nat.digits_lt_base (by norm_num) hd) h2
    calc m = Nat.ofDigits 10 (Nat.digits 10 m) := (Nat.ofDigits_digits 10 m).symm
    _ = Nat.ofDigits 10 (Nat.digits 10 n) := by rw [hd]
    _ = n := Nat.ofDigits_digits 10 n

theorem searchCacheKey_inj_right (q : Str) (m m' : Nat)
    (h : searchCacheKey q m = searchCacheKey q m') : m = m' := by
  simp only [searchCacheKey] at h
  have h2 := List.append_cancel_left h
  simp only [List.cons.injEq, true_and] at h2
  exact pyNatStr_inj m m' h2

/-- C1: setting search results and then getting them with the identical
`(query, max_results)` pair returns the stored payload (from any prior cache
state), and — starting from an empty cache — a `get_search_results` with a
`max_results` different from the one used at set time is a cache miss. -/
theorem cache_search_roundtrip_and_miss {α : Type}
    (hash : Str → Str) (now : Str) (st : SearchCache α)
    (query : Str) (results : α) (m m' : Nat) (hne : m' ≠ m) :
    get_search_results hash
        (set_search_results hash now st query results m) query m
      = some results ∧
    get_search_results hash
        (set_search_results hash now emptySearchCache query results m) query m'
      = none := by
  constructor
  · simp [get_search_results, set_search_results,
      assocGet_assocSet_self]
  · have hkey : searchCacheKey query m ≠ searchCacheKey query m' :=
      fun h => hne (searchCacheKey_inj_right query m m' h).symm
    simp [get_search_results, set_search_results, emptySearchCache,
      assocSet, assocGet, hkey]

/-- Witness for C1 at a concrete input: cache key `"q":10`, payload the string
list `["x"]`, queried back with `max_results = 10` (hit) and `5` (miss). -/
theorem cache_search_roundtrip_and_miss_witness :
    (5 : Nat) ≠ 10 ∧
    (get_search_results (fun _ => lit "h")
        (set_search_results (fun _ => lit "h") (lit "t") emptySearchCache
          (lit "q") [lit "x"] 10) (lit "q") 10
      = some [lit "x"] ∧
    get_search_results (fun _ => lit "h")
        (set_search_results (fun _ => lit "h") (lit "t") emptySearchCache
          (lit "q") [lit "x"] 10) (lit "q") 5
      = none) :=
  ⟨by decide,
   cache_search_roundtrip_and_miss (fun _ => lit "h") (lit "t")
     emptySearchCache (lit "q") [lit "x"] 10 5 (by decide)⟩

/-! ## Transcript batch retrieval (`backend/app/services/youtube.py`)

`YouTubeService.get_transcripts_batch` resolves each requested video id via
`get_transcript` (network + cache, abstracted into the outcome function
`fetch`), substitutes a synthetic fallback transcript generated from the
video's metadata whenever no transcript text was obtained, and emits one
`VideoTranscript` per id with the placeholder duration `600.0`. -/

/-- Model of the `VideoTranscript` pydantic record
(`backend/app/models/schemas.py`). -/
structure VideoTranscript where
  video_id : Str
  title : Str
  transcript : Str
  language : Str
  duration_seconds : ℚ

/-- Body of the f-string template in
`YouTubeService._generate_fallback_transcript` (`youtube.py`, lines 221-237),
before the final `.strip()`. -/
def fallbackBody (title description : Str) : Str :=
  lit "\n        Welcome to this podcast episode about " ++ title ++
  lit ".\n        \n        In today\x27s discussion, we\x27ll be exploring the key topics covered in this video.\n        " ++
  (if description ≠ [] then description.take 1000
   else lit "This episode covers important insights and discussions.") ++
  lit "\n        \n        The hosts discuss various perspectives and share valuable information.\n        Key points include understanding the main concepts, exploring different viewpoints,\n        and providing actionable takeaways for the audience.\n        \n        Throughout this episode, we dive deep into the subject matter,\n        examining both the fundamentals and advanced topics.\n        The discussion provides valuable insights for both beginners and experts alike.\n        \n        We hope you find this content informative and engaging.\n        Thank you for listening to this episode.\n        "

/-- Model of `YouTubeService._generate_fallback_transcript`
(`youtube.py`, lines 215-238): render the boilerplate template from the
video's title and (truncated) description and strip surrounding whitespace. -/
def generate_fallback_transcript (title description : Str) : Str :=
  pyStrip (fallbackBody title description)

/-- Title lookup `video_details.get(video_id, {}).get('title', f'Video {video_id}')`.
`details` maps an id to its `(title, description)` metadata when the batch
metadata call returned it. -/
def batchTitle (details : Str → Option (Str × Str)) (vid : Str) : Str :=
  match details vid with
  | some td => td.1
  | none => lit "Video " ++ vid

/-- Description lookup `details.get('description', '')` with missing-entry
default `''`. -/
def batchDescription (details : Str → Option (Str × Str)) (vid : Str) : Str :=
  match details vid with
  | some td => td.2
  | none => []

/-- Transcript text resolved for one id inside the
`for video_id in video_ids` loop (`youtube.py`, lines 280-292): the
`get_transcript` outcome, with the synthetic fallback substituted when it is
`None` or empty (Python truthiness of `if not transcript_text`). -/
def batchTranscriptText (fetch : Str → Option Str)
    (details : Str → Option (Str × Str)) (vid : Str) : Str :=
  match fetch vid with
  | some t =>
      if t = [] then
        generate_fallback_transcript (batchTitle details vid)
          (batchDescription details vid)
      else t
  | none =>
      generate_fallback_transcript (batchTitle details vid)
        (batchDescription details vid)

/-- One iteration of the loop of `get_transcripts_batch`
(`youtube.py`, lines 279-305): append a `VideoTranscript` with the
placeholder duration `600.0` when the resolved text is non-empty
(`if transcript_text:`). -/
def batchStep (fetch : Str → Option Str) (details : Str → Option (Str × Str))
    (language : Str) (acc : List VideoTranscript) (vid : Str) :
    List VideoTranscript :=
  if batchTranscriptText fetch details vid ≠ [] then
    acc ++ [{ video_id := vid
              title := batchTitle details vid
              transcript := batchTranscriptText fetch details vid
              language := language
              duration_seconds := 600 }]
  else
    acc

/-- Model of `YouTubeService.get_transcripts_batch`
(`youtube.py`, lines 240-311).  The batch metadata call is abstracted into
`details`; per-id transcript resolution into `fetch`; `languages` is the
optional preferred-language list (`None` defaults to `['en']`, an empty list
falls back to `'en'` for the record's language field). -/
def get_transcripts_batch (fetch : Str → Option Str)
    (details : Str → Option (Str × Str)) (languages : Option (List Str))
    (video_ids : List Str) : List VideoTranscript :=
  let langs := languages.getD [lit "en"]
  let language := langs.headD (lit "en")
  video_ids.foldl (batchStep fetch details language) []

theorem mem_dropWhile_of_neg {p : Char → Bool} {c : Char} :
    ∀ {l : Str}, c ∈ l → p c = false → c ∈ l.dropWhile p := by
  intro l
  induction l with
  | nil => intro h; exact absurd h (by simp)
  | cons a rest ih =>
      intro hmem hp
      by_cases ha : p a
      · rw [List.dropWhile_cons_of_pos ha]
        rcases List.mem_cons.mp hmem with rfl | h
        · rw [ha] at hp; cases hp
        · exact ih h hp
      · rw [List.dropWhile_cons_of_neg (by simpa using ha)]
        exact hmem

theorem pyStrip_ne_nil {s : Str} {c : Char} (hmem : c ∈ s)
    (hc : isPySpace c = false) : pyStrip s ≠ [] := by
  intro h
  have h1 : (s.dropWhile isPySpace).reverse.dropWhile isPySpace = [] := by
    simpa [pyStrip] using congrArg List.reverse h
  have h2 : ∀ x ∈ (s.dropWhile isPySpace).reverse, isPySpace x :=
    List.dropWhile_eq_nil_iff.mp h1
  have h3 : c ∈ s.dropWhile isPySpace := mem_dropWhile_of_neg hmem hc
  have := h2 c (by simpa using h3)
  rw [hc] at this
  cases this

theorem generate_fallback_transcript_ne_nil (title description : Str) :
    generate_fallback_transcript title description ≠ [] := by
  apply pyStrip_ne_nil (c := 'W')
  · unfold fallbackBody
    exact List.mem_append_left _ (List.mem_append_left _
      (List.mem_append_left _ (List.mem_append_left _ (by decide))))
  · decide

theorem batchTranscriptText_ne_nil (fetch : Str → Option Str)
    (details : Str → Option (Str × Str)) (vid : Str) :
    batchTranscriptText fetch details vid ≠ [] := by
  unfold batchTranscriptText
  cases fetch vid with
  | none => exact generate_fallback_transcript_ne_nil _ _
  | some t =>
      show (if t = [] then
          generate_fallback_transcript (batchTitle details vid)
            (batchDescription details vid)
        else t) ≠ []
      by_cases ht : t = []
      · rw [if_pos ht]
        exact generate_fallback_transcript_ne_nil _ _
      · rw [if_neg ht]
        exact ht

theorem batchStep_appends (fetch : Str → Option Str)
    (details : Str → Option (Str × Str)) (language : Str)
    (acc : List VideoTranscript) (vid : Str) :
    ∃ vt, batchStep fetch details language acc vid = acc ++ [vt] ∧
      vt.video_id = vid ∧ vt.duration_seconds = 600 := by
  refine ⟨{ video_id := vid
            title := batchTitle details vid
            transcript := batchTranscriptText fetch details vid
            language := language
            duration_seconds := 600 }, ?_, rfl, rfl⟩
  unfold batchStep
  rw [if_pos]
  simpa using batchTranscriptText_ne_nil fetch details vid

theorem foldl_batchStep_spec (fetch : Str → Option Str)
    (details : Str → Option (Str × Str)) (language : Str) :
    ∀ (ids : List Str) (acc : List VideoTranscript),
      ((ids.foldl (batchStep fetch details language) acc).map
          VideoTranscript.video_id = acc.map VideoTranscript.video_id ++ ids) ∧
      (∀ vt ∈ ids.foldl (batchStep fetch details language) acc,
        vt ∈ acc ∨ vt.duration_seconds = 600) := by
  intro ids
  induction ids with
  | nil =>
      intro acc
      exact ⟨by simp, fun vt h => Or.inl h⟩
  | cons vid rest ih =>
      intro acc
      obtain ⟨vt, hstep, hid, hdur⟩ :=
        batchStep_appends fetch details language acc vid
      constructor
      · rw [List.foldl_cons, hstep, (ih (acc ++ [vt])).1]
        simp [hid]
      · intro x hx
        rw [List.foldl_cons, hstep] at hx
        rcases (ih (acc ++ [vt])).2 x hx with hmem | hd
        · rcases List.mem_append.mp hmem with h | h
          · exact Or.inl h
          · right
            rw [List.mem_singleton.mp h]
            exact hdur
        · exact Or.inr hd

/-- C2: for every non-empty video-id list, `get_transcripts_batch` returns
exactly one `VideoTranscript` per input id, in order (the returned
`video_id`s are exactly the input list) — every retrieval failure being
masked by the synthetic fallback — and every returned record carries the
placeholder `duration_seconds = 600`. -/
theorem get_transcripts_batch_one_per_id (fetch : Str → Option Str)
    (details : Str → Option (Str × Str)) (languages : Option (List Str))
    (video_ids : List Str) (hne : video_ids ≠ []) :
    (get_transcripts_batch fetch details languages video_ids).map
        VideoTranscript.video_id = video_ids ∧
    (get_transcripts_batch fetch details languages video_ids).length =
        video_ids.length ∧
    ∀ vt ∈ get_transcripts_batch fetch details languages video_ids,
      vt.duration_seconds = 600 := by
  have h := foldl_batchStep_spec fetch details
    ((languages.getD [lit "en"]).headD (lit "en")) video_ids []
  refine ⟨by simpa [get_transcripts_batch] using h.1, ?_, ?_⟩
  · have := congrArg List.length
      (by simpa [get_transcripts_batch] using h.1 :
        (get_transcripts_batch fetch details languages video_ids).map
          VideoTranscript.video_id = video_ids)
    simpa using this
  · intro vt hvt
    rcases h.2 vt (by simpa [get_transcripts_batch] using hvt) with hmem | hd
    · exact absurd hmem (by simp)
    · exact hd

/-- Witness for C2 at a concrete input: one video id whose transcript fetch
and metadata lookup both fail, so the synthetic fallback is used. -/
theorem get_transcripts_batch_one_per_id_witness :
    ([lit "v"] : List Str) ≠ [] ∧
    ((get_transcripts_batch (fun _ => none) (fun _ => none) none
        [lit "v"]).map VideoTranscript.video_id = [lit "v"] ∧
     (get_transcripts_batch (fun _ => none) (fun _ => none) none
        [lit "v"]).length = 1 ∧
     ∀ vt ∈ get_transcripts_batch (fun _ => none) (fun _ => none) none
        [lit "v"], vt.duration_seconds = 600) :=
  ⟨by simp [lit],
   get_transcripts_batch_one_per_id (fun _ => none) (fun _ => none) none
     [lit "v"] (by simp [lit])⟩

/-! ## Single-video transcript retrieval (`youtube.py`, lines 161-213)

`YouTubeService.get_transcript` checks the cache, then tries the
youtube-transcript-api ("Method 1").  Its `try` has two handlers: an
`except (TranscriptsDisabled, NoTranscriptFound)` arm that only logs, and a
generic `except Exception` arm that additionally tries the timedtext
page-scraping fallback ("Method 2").  The model records, alongside the
returned value, whether the timedtext fallback was attempted; the
`cache.set_transcript` writes on success are elided (they do not affect the
returned value or the attempt flag). -/

/-- Outcome of the primary `YouTubeTranscriptApi().fetch(...)` call: success
with the joined transcript text, one of the two specifically-caught
exceptions, or any other exception. -/
inductive PrimaryApiOutcome where
  | fetched (text : Str)
  | transcriptsDisabled
  | noTranscriptFound
  | otherFailure
deriving DecidableEq

/-- Model of `YouTubeService.get_transcript` (`youtube.py`, lines 161-213).
Returns the transcript (or `none`) paired with a flag recording whether
`_get_transcript_via_timedtext` was attempted.  `timedtext` is that
fallback's outcome (its HTTP internals are abstracted); the code keeps its
result only when truthy (`if transcript:`). -/
def get_transcript (cached : Option Str) (primary : PrimaryApiOutcome)
    (timedtext : Option Str) : Option Str × Bool :=
  match cached with
  | some t => (some t, false)
  | none =>
      match primary with
      | .fetched t => (some t, false)
      | .transcriptsDisabled => (none, false)
      | .noTranscriptFound => (none, false)
      | .otherFailure =>
          match timedtext with
          | some t => if t ≠ [] then (some t, true) else (none, true)
          | none => (none, true)

/-- C3 counterexample: with an empty cache, when the provider reports
`TranscriptsDisabled` the operation returns no value WITHOUT attempting the
timedtext fallback (the attempt flag is `false`), even though the fallback
would have produced a transcript — refuting the claim that every primary-API
failure attempts the secondary method. -/
theorem get_transcript_disabled_skips_fallback :
    (get_transcript none .transcriptsDisabled (some (lit "x"))).1 = none ∧
    (get_transcript none .transcriptsDisabled (some (lit "x"))).2 = false :=
  ⟨rfl, rfl⟩

/-- C3 (amended): the timedtext fallback is attempted exactly for
primary-API failures other than the two specifically-caught exceptions: on
any other failure the fallback is attempted, while on `TranscriptsDisabled`
or `NoTranscriptFound` the operation returns no value without attempting
it. -/
theorem get_transcript_fallback_policy :
    (∀ timedtext : Option Str,
        (get_transcript none .otherFailure timedtext).2 = true) ∧
    (∀ timedtext : Option Str,
        get_transcript none .transcriptsDisabled timedtext = (none, false)) ∧
    (∀ timedtext : Option Str,
        get_transcript none .noTranscriptFound timedtext = (none, false)) := by
  refine ⟨?_, ?_, ?_⟩
  · intro timedtext
    cases timedtext with
    | none => rfl
    | some t =>
        show (if t ≠ [] then (some t, true) else (none, true)).2 = true
        by_cases ht : t = [] <;> simp [ht]
  · intro timedtext; rfl
  · intro timedtext; rfl

/-! ## Chaining video generation (`backend/app/services/veo_service.py`)

`VeoService.generate_videos` generates the first scene's clip, then extends
the previous clip for each subsequent scene, keeps only the final extended
clip (resetting its scene number to 1) and reports the running sum of the
scenes' nominal durations.  The provider interaction of one
`generate_video` call (submit, poll, download) is abstracted into the oracle
`gen`, supplying per call the downloaded file path and the provider file
handle used for extension. -/

/-- Model of the `VideoScene` pydantic record
(`backend/app/models/schemas.py`); `video_file` is the opaque provider file
handle (`None` when absent), modelled as an optional token. -/
structure VideoScene where
  scene_number : Int
  file_path : Str
  duration : ℚ
  transcript_text : Str
  video_file : Option Nat
deriving Repr, DecidableEq

/-- Model of the `VideoGenerationResponse` record. -/
structure VideoGenerationResponse where
  video_scenes : List VideoScene
  total_duration : ℚ
deriving Repr, DecidableEq

/-- Provider-side outcome of one `VeoService.generate_video` call: the path
the clip was downloaded to and the file handle stored for extension. -/
structure GenOut where
  file_path : Str
  video_file : Option Nat
deriving Repr, DecidableEq

/-- Model of one successful `VeoService.generate_video` call
(`veo_service.py`, lines 292-304): the returned `VideoScene` copies the
scene's number, nominal duration and transcript text, and carries the
downloaded path and provider file handle from the call outcome `out`. -/
def generate_video (out : GenOut) (scene : SceneDescription) : VideoScene :=
  { scene_number := scene.scene_number
    file_path := out.file_path
    duration := scene.duration
    transcript_text := scene.transcript_text
    video_file := out.video_file }

/-- Model of the `for i, scene in enumerate(scenes[1:], start=2)` loop of
`VeoService.generate_videos` (`veo_service.py`, lines 342-361): raise if no
file handle is available from the previous clip, else extend, append, add
the scene's nominal duration and carry the new handle. -/
def chainLoop (gen : Nat → GenOut) :
    List SceneDescription → Nat → List VideoScene → ℚ → Option Nat →
    Except Str (List VideoScene × ℚ × Option Nat)
  | [], _, video_scenes, total, cur => .ok (video_scenes, total, cur)
  | scene :: rest, i, video_scenes, total, cur =>
      match cur with
      | none => .error (lit "No video file reference available from previous video")
      | some _ =>
          let ext := generate_video (gen i) scene
          chainLoop gen rest (i + 1) (video_scenes ++ [ext])
            (total + ext.duration) ext.video_file

/-- Post-loop selection of `VeoService.generate_videos`
(`veo_service.py`, lines 363-379): when more than one clip was produced,
keep only the final extended clip with its scene number reset to 1;
otherwise return the clips unchanged.  Either way report the accumulated
nominal duration. -/
def keepFinal (video_scenes : List VideoScene) (total_duration : ℚ) :
    VideoGenerationResponse :=
  if h : 1 < video_scenes.length then
    { video_scenes :=
        [{ video_scenes.getLast (List.ne_nil_of_length_pos (by omega)) with
            scene_number := 1 }]
      total_duration := total_duration }
  else
    { video_scenes := video_scenes
      total_duration := total_duration }

/-- Model of `VeoService.generate_videos` (`veo_service.py`, lines 310-383):
generate the first clip, chain-extend through the remaining scenes, then
apply the final-clip selection. -/
def generate_videos (gen : Nat → GenOut) (scenes : List SceneDescription) :
    Except Str VideoGenerationResponse :=
  match scenes with
  | [] => .error (lit "No scenes provided")
  | first_scene :: rest =>
      let first_video := generate_video (gen 0) first_scene
      (chainLoop gen rest 1 [first_video] first_video.duration
          first_video.video_file).map
        (fun out => keepFinal out.1 out.2.1)

theorem chainLoop_ok_spec (gen : Nat → GenOut) :
    ∀ (rest : List SceneDescription) (i : Nat) (vs : List VideoScene)
      (total : ℚ) (cur : Option Nat) (out : List VideoScene × ℚ × Option Nat),
      chainLoop gen rest i vs total cur = .ok out →
      out.1.length = vs.length + rest.length ∧
      out.2.1 = total + (rest.map SceneDescription.duration).sum := by
  intro rest
  induction rest with
  | nil =>
      intro i vs total cur out h
      simp only [chainLoop] at h
      cases h
      simp
  | cons scene rest2 ih =>
      intro i vs total cur out h
      simp only [chainLoop] at h
      cases cur with
      | none => cases h
      | some k =>
          obtain ⟨h1, h2⟩ := ih (i + 1) (vs ++ [generate_video (gen i) scene])
            (total + (generate_video (gen i) scene).duration)
            (generate_video (gen i) scene).video_file out h
          constructor
          · rw [h1]; simp; omega
          · rw [h2]
            show total + scene.duration + _ = _
            simp only [List.map_cons, List.sum_cons]
            ring

/-- C6: for every scene list with at least two scenes, whenever the chaining
`generate_videos` succeeds it returns exactly one `VideoScene` (the final
extended clip), its scene number reset to 1, and its reported
`total_duration` is the additive sum of every input scene's nominal
duration. -/
theorem generate_videos_chain_spec (gen : Nat → GenOut)
    (scenes : List SceneDescription) (r : VideoGenerationResponse)
    (h2 : 2 ≤ scenes.length)
    (hok : generate_videos gen scenes = .ok r) :
    r.video_scenes.length = 1 ∧
    (∀ v ∈ r.video_scenes, v.scene_number = 1) ∧
    r.total_duration = (scenes.map SceneDescription.duration).sum := by
  cases scenes with
  | nil => exact absurd h2 (by simp)
  | cons first_scene rest =>
      simp only [generate_videos] at hok
      cases hloop : chainLoop gen rest 1
          [generate_video (gen 0) first_scene]
          (generate_video (gen 0) first_scene).duration
          (generate_video (gen 0) first_scene).video_file with
      | error e =>
          rw [hloop] at hok
          simp [Except.map] at hok
      | ok out =>
          obtain ⟨vs, total, cur⟩ := out
          rw [hloop] at hok
          simp only [Except.map, Except.ok.injEq] at hok
          obtain ⟨hlen, htot⟩ := chainLoop_ok_spec gen rest 1
            [generate_video (gen 0) first_scene]
            (generate_video (gen 0) first_scene).duration
            (generate_video (gen 0) first_scene).video_file
            (vs, total, cur) hloop
      -- rest is non-empty because scenes has at least two elements
          have hrest : rest.length ≥ 1 := by
            simp only [List.length_cons] at h2; omega
          have hgt : 1 < vs.length := by simp at hlen; omega
          subst hok
          simp only [keepFinal, dif_pos hgt]
          refine ⟨rfl, ?_, ?_⟩
          · intro v hv
            rw [List.mem_singleton.mp hv]
          · have htot2 : total = (generate_video (gen 0) first_scene).duration
                + (List.map SceneDescription.duration rest).sum := htot
            rw [htot2, List.map_cons, List.sum_cons]
            rfl

/-- Witness for C6 at a concrete two-scene input where the provider returns
a file handle for each call. -/
theorem generate_videos_chain_spec_witness :
    2 ≤ ([⟨1, lit "a", lit "p1", 8, none⟩,
          ⟨2, lit "b", lit "p2", 8, none⟩] :
            List SceneDescription).length ∧
    generate_videos (fun _ => ⟨lit "f", some 0⟩)
        [⟨1, lit "a", lit "p1", 8, none⟩, ⟨2, lit "b", lit "p2", 8, none⟩]
      = .ok { video_scenes := [⟨1, lit "f", 8, lit "b", some 0⟩]
              total_duration := 16 } ∧
    ((({ video_scenes := [⟨1, lit "f", 8, lit "b", some 0⟩]
         total_duration := 16 } : VideoGenerationResponse)).video_scenes.length = 1 ∧
     (∀ v ∈ ({ video_scenes := [⟨1, lit "f", 8, lit "b", some 0⟩]
               total_duration := 16 } : VideoGenerationResponse).video_scenes,
        v.scene_number = 1) ∧
     ({ video_scenes := [⟨1, lit "f", 8, lit "b", some 0⟩]
        total_duration := 16 } : VideoGenerationResponse).total_duration =
       (([⟨1, lit "a", lit "p1", 8, none⟩, ⟨2, lit "b", lit "p2", 8, none⟩] :
           List SceneDescription).map SceneDescription.duration).sum) := by
  have hok : generate_videos (fun _ => ⟨lit "f", some 0⟩)
      [⟨1, lit "a", lit "p1", 8, none⟩, ⟨2, lit "b", lit "p2", 8, none⟩]
    = .ok { video_scenes := [⟨1, lit "f", 8, lit "b", some 0⟩]
            total_duration := 16 } := by
    simp only [generate_videos, chainLoop, generate_video, Except.map,
      keepFinal]
    norm_num [List.getLast]
  exact ⟨by decide, hok,
    generate_videos_chain_spec (fun _ => ⟨lit "f", some 0⟩)
      [⟨1, lit "a", lit "p1", 8, none⟩, ⟨2, lit "b", lit "p2", 8, none⟩]
      { video_scenes := [⟨1, lit "f", 8, lit "b", some 0⟩]
        total_duration := 16 } (by decide) hok⟩

/-! ## Podcast-service video-only pipeline (`backend/app/api/v1/video.py`)

`POST /api/v1/generate-video` (lines 190-254) runs snippet extraction and
scene generation (provider-driven; their results are inputs of the model),
truncates to the first scene, overrides its duration to 15, generates one
video through the chaining `VeoService.generate_videos`, and returns a
response with no audio scenes and no stitched path. -/

/-- Model of the `Snippet` pydantic record
(`backend/app/models/schemas.py`). -/
structure Snippet where
  text : Str
  start_time : Option ℚ
  end_time : Option ℚ
  context : Option Str
  reason : Option Str
deriving Repr, DecidableEq

/-- Model of the `AudioScene` pydantic record. -/
structure AudioScene where
  scene_number : Int
  file_path : Str
  duration : ℚ
  transcript_text : Str
deriving Repr, DecidableEq

/-- Model of the `VideoGenerationFullResponse` record. -/
structure VideoGenerationFullResponse where
  snippets : List Snippet
  scenes : List SceneDescription
  video_scenes : List VideoScene
  audio_scenes : List AudioScene
  stitched_video_path : Option Str
  final_video_path : Str
  total_duration : ℚ
deriving Repr, DecidableEq

/-- Tail of the endpoint (`video.py`, lines 237-250): raise if Veo returned
no video scenes, else build the response from the first returned clip, with
empty `audio_scenes`, absent `stitched_video_path` and `total_duration`
fixed at 15. -/
def pickFirstVideo (snippets : List Snippet) (scenes : List SceneDescription) :
    List VideoScene → Except Str VideoGenerationFullResponse
  | [] => .error (lit "No video scenes returned from Veo")
  | v0 :: rest =>
      .ok { snippets := snippets
            scenes := scenes
            video_scenes := v0 :: rest
            audio_scenes := []
            stitched_video_path := none
            final_video_path := v0.file_path
            total_duration := 15 }

/-- Model of the `generate_video` endpoint handler
(`video.py`, lines 190-254).  `snippets` is the snippet-extraction result
and `scenes0` the scene-generation result (`scenes_response.scenes`); the
handler raises when no scenes were generated, truncates to `scenes[:1]`,
sets `scenes[0].duration = 15`, and delegates to the chaining
`generate_videos`. -/
def generate_video_endpoint (snippets : List Snippet)
    (scenes0 : List SceneDescription) (gen : Nat → GenOut) :
    Except Str VideoGenerationFullResponse :=
  match scenes0 with
  | [] => .error (lit "No scenes generated")
  | s0 :: _ =>
      let scenes := [{ s0 with duration := 15 }]
      (generate_videos gen scenes).bind
        (fun vr => pickFirstVideo snippets scenes vr.video_scenes)

/-- C5: every successful response of the podcast service's video-only
pipeline — whatever the upstream snippet and scene stages produced —
contains exactly one scene, that scene's duration is 15, `audio_scenes` is
empty, `stitched_video_path` is absent, and `total_duration` is 15. -/
theorem generate_video_endpoint_spec (snippets : List Snippet)
    (scenes0 : List SceneDescription) (gen : Nat → GenOut)
    (r : VideoGenerationFullResponse)
    (hok : generate_video_endpoint snippets scenes0 gen = .ok r) :
    r.scenes.length = 1 ∧
    (∀ s ∈ r.scenes, s.duration = 15) ∧
    r.audio_scenes = [] ∧
    r.stitched_video_path = none ∧
    r.total_duration = 15 := by
  cases scenes0 with
  | nil => simp [generate_video_endpoint] at hok
  | cons s0 rest0 =>
      simp only [generate_video_endpoint] at hok
      cases hv : generate_videos gen [{ s0 with duration := 15 }] with
      | error e =>
          rw [hv] at hok
          simp [Except.bind] at hok
      | ok vr =>
          rw [hv] at hok
          simp only [Except.bind] at hok
          cases hvs : vr.video_scenes with
          | nil =>
              rw [hvs] at hok
              simp [pickFirstVideo] at hok
          | cons v0 vrest =>
              rw [hvs] at hok
              simp only [pickFirstVideo, Except.ok.injEq] at hok
              subst hok
              exact ⟨rfl, fun s hs => by rw [List.mem_singleton.mp hs],
                rfl, rfl, rfl⟩

/-- Witness for C5 at a concrete input: two upstream scenes (showing the
truncation), a provider that returns a clip with a file handle. -/
theorem generate_video_endpoint_spec_witness :
    generate_video_endpoint []
        [⟨1, lit "t", lit "v", 8, none⟩, ⟨2, lit "u", lit "w", 8, none⟩]
        (fun _ => ⟨lit "f", some 0⟩)
      = .ok { snippets := []
              scenes := [⟨1, lit "t", lit "v", 15, none⟩]
              video_scenes := [⟨1, lit "f", 15, lit "t", some 0⟩]
              audio_scenes := []
              stitched_video_path := none
              final_video_path := lit "f"
              total_duration := 15 } ∧
    (({ snippets := []
        scenes := [⟨1, lit "t", lit "v", 15, none⟩]
        video_scenes := [⟨1, lit "f", 15, lit "t", some 0⟩]
        audio_scenes := []
        stitched_video_path := none
        final_video_path := lit "f"
        total_duration := 15 } : VideoGenerationFullResponse).scenes.length = 1 ∧
     (∀ s ∈ ({ snippets := []
               scenes := [⟨1, lit "t", lit "v", 15, none⟩]
               video_scenes := [⟨1, lit "f", 15, lit "t", some 0⟩]
               audio_scenes := []
               stitched_video_path := none
               final_video_path := lit "f"
               total_duration := 15 } :
                 VideoGenerationFullResponse).scenes, s.duration = 15) ∧
     ({ snippets := []
        scenes := [⟨1, lit "t", lit "v", 15, none⟩]
        video_scenes := [⟨1, lit "f", 15, lit "t", some 0⟩]
        audio_scenes := []
        stitched_video_path := none
        final_video_path := lit "f"
        total_duration := 15 } :
          VideoGenerationFullResponse).audio_scenes = [] ∧
     ({ snippets := []
        scenes := [⟨1, lit "t", lit "v", 15, none⟩]
        video_scenes := [⟨1, lit "f", 15, lit "t", some 0⟩]
        audio_scenes := []
        stitched_video_path := none
        final_video_path := lit "f"
        total_duration := 15 } :
          VideoGenerationFullResponse).stitched_video_path = none ∧
     ({ snippets := []
        scenes := [⟨1, lit "t", lit "v", 15, none⟩]
        video_scenes := [⟨1, lit "f", 15, lit "t", some 0⟩]
        audio_scenes := []
        stitched_video_path := none
        final_video_path := lit "f"
        total_duration := 15 } :
          VideoGenerationFullResponse).total_duration = 15) := by
  have hok : generate_video_endpoint []
      [⟨1, lit "t", lit "v", 8, none⟩, ⟨2, lit "u", lit "w", 8, none⟩]
      (fun _ => ⟨lit "f", some 0⟩)
    = .ok { snippets := []
            scenes := [⟨1, lit "t", lit "v", 15, none⟩]
            video_scenes := [⟨1, lit "f", 15, lit "t", some 0⟩]
            audio_scenes := []
            stitched_video_path := none
            final_video_path := lit "f"
            total_duration := 15 } := by
    simp only [generate_video_endpoint, generate_videos, chainLoop,
      generate_video, keepFinal, Except.map, Except.bind, pickFirstVideo]
    norm_num
  exact ⟨hok,
    generate_video_endpoint_spec []
      [⟨1, lit "t", lit "v", 8, none⟩, ⟨2, lit "u", lit "w", 8, none⟩]
      (fun _ => ⟨lit "f", some 0⟩) _ hok⟩

/-! ## Voice-id handling (`backend/app/api/v1/video.py`, `tts.py`,
`backend/app/services/elevenlabs.py`)

`_normalize_voice_id` (video.py, lines 41-54) maps `None`, blank and the
case-insensitive sentinel `"default"` to `None`; it is applied by the
`/generate-audio` endpoint.  The `/tts` endpoint (`convert_to_speech`,
tts.py, lines 12-49) passes the request's voice ids to
`ElevenLabsService.generate_audio` unchanged, where the only defaulting is
Python's `or` (`voice1 = voice_id_host1 or self.DEFAULT_VOICE_HOST1`,
elevenlabs.py, line 44), which replaces only `None` and the empty string. -/

/-- ElevenLabs hardcoded default voice for host 1 (`elevenlabs.py`, line 15). -/
def DEFAULT_VOICE_HOST1 : Str := lit "21m00Tcm4TlvDq8ikWAM"

/-- Model of `_normalize_voice_id` (`video.py`, lines 41-54). -/
def normalize_voice_id : Option Str → Option Str
  | none => none
  | some voice_id =>
      let normalized := pyStrip voice_id
      if normalized = [] ∨ pyLower normalized = lit "default" then none
      else some normalized

/-- Python `v or d` for an `Optional[str]` `v`: `None` and the empty string
are falsy, everything else is kept. -/
def orDefault (v : Option Str) (d : Str) : Str :=
  match v with
  | none => d
  | some s => if s = [] then d else s

/-- Voice actually passed to the ElevenLabs provider for host 1 on the
`/tts` path: `convert_to_speech` forwards `request.voice_id_host1`
unmodified, and `generate_audio` applies only the `or`-default
(`elevenlabs.py`, line 44). -/
def tts_effective_voice_host1 (request_voice : Option Str) : Str :=
  orDefault request_voice DEFAULT_VOICE_HOST1

/-- C8 counterexample: on the `/tts` text-to-speech path the caller-supplied
sentinel `"default"` (and likewise a whitespace-only voice id) reaches the
provider verbatim instead of being replaced by the hardcoded default voice:
no normalization step runs on that path. -/
theorem tts_default_sentinel_not_normalized :
    tts_effective_voice_host1 (some (lit "default")) = lit "default" ∧
    lit "default" ≠ DEFAULT_VOICE_HOST1 ∧
    tts_effective_voice_host1 (some (lit " ")) = lit " " := by
  refine ⟨rfl, ?_, rfl⟩
  decide

/-- C8 (amended): the sentinel normalization exists only where
`_normalize_voice_id` is applied (the `/generate-audio` endpoint): there,
any voice id that strips to the empty string or lowercases to `"default"`
becomes `None`, and the `or`-defaulting then substitutes the hardcoded
default voice.  On the `/tts` path only an absent (`None`) or empty voice id
falls back to the hardcoded default. -/
theorem voice_id_normalization_policy :
    (∀ v : Str,
        pyStrip v = [] ∨ pyLower (pyStrip v) = lit "default" →
        normalize_voice_id (some v) = none ∧
        orDefault (normalize_voice_id (some v)) DEFAULT_VOICE_HOST1 =
          DEFAULT_VOICE_HOST1) ∧
    tts_effective_voice_host1 none = DEFAULT_VOICE_HOST1 ∧
    tts_effective_voice_host1 (some []) = DEFAULT_VOICE_HOST1 := by
  refine ⟨?_, rfl, rfl⟩
  intro v hv
  have h : normalize_voice_id (some v) = none := by
    simp only [normalize_voice_id]
    rw [if_pos hv]
  exact ⟨h, by rw [h]; rfl⟩

/-- Witness for C8 (amended) at the concrete sentinel `"DeFaUlT"`. -/
theorem voice_id_normalization_policy_witness :
    (pyStrip (lit "DeFaUlT") = [] ∨
      pyLower (pyStrip (lit "DeFaUlT")) = lit "default") ∧
    (normalize_voice_id (some (lit "DeFaUlT")) = none ∧
     orDefault (normalize_voice_id (some (lit "DeFaUlT")))
        DEFAULT_VOICE_HOST1 = DEFAULT_VOICE_HOST1) :=
  ⟨by decide, voice_id_normalization_policy.1 (lit "DeFaUlT") (by decide)⟩

/-! ## Upload validation (`backend/app/api/v1/upload.py`)

`upload_source` first resolves `SourceType(source_type.lower())` (rejecting
unknown values with the invalid-source_type message), then checks
`validate_file_type`, whose validator table has no entry for
`SourceType.YOUTUBE` (`type_validators.get` returns `None`, so the check
returns `False`).  The file is saved only after both checks pass. -/

/-- Model of the `SourceType` enum (`backend/app/models/schemas.py`,
lines 13-19). -/
inductive SourceType where
  | youtube
  | image
  | audio
  | video
  | pdf
deriving DecidableEq, Repr

/-- Model of the enum lookup `SourceType(source_type.lower())`: match the
lowered string against the enum values, `none` on `ValueError`. -/
def sourceTypeOfString (s : Str) : Option SourceType :=
  if pyLower s = lit "youtube" then some .youtube
  else if pyLower s = lit "image" then some .image
  else if pyLower s = lit "audio" then some .audio
  else if pyLower s = lit "video" then some .video
  else if pyLower s = lit "pdf" then some .pdf
  else none

/-- Python substring test `sub in s`. -/
def strContains (sub : Str) : Str → Bool
  | [] => decide (sub = [])
  | c :: rest => sub.isPrefixOf (c :: rest) || strContains sub rest

/-- Model of `validate_file_type` (`upload.py`, lines 26-42), taking the
file's declared MIME type and already-lowercased extension (the
`get_file_extension` result).  The `type_validators` dict has entries for
PDF/IMAGE/AUDIO/VIDEO only; for any other source type `.get` yields no
validator and the function returns `False`. -/
def validate_file_type (mime ext : Str) : SourceType → Bool
  | .pdf => strContains (lit "pdf") mime || ext = lit ".pdf"
  | .image => (lit "image/").isPrefixOf mime ||
      (ext = lit ".jpg" || ext = lit ".jpeg" || ext = lit ".png" ||
       ext = lit ".gif" || ext = lit ".webp")
  | .audio => (lit "audio/").isPrefixOf mime ||
      (ext = lit ".mp3" || ext = lit ".wav" || ext = lit ".ogg" ||
       ext = lit ".m4a")
  | .video => (lit "video/").isPrefixOf mime ||
      (ext = lit ".mp4" || ext = lit ".webm" || ext = lit ".ogg" ||
       ext = lit ".mov")
  | .youtube => false

/-- Outcome of the validation prefix of `upload_source`
(`upload.py`, lines 86-101): the 400 response listing valid types, the 400
type-mismatch response, or acceptance (after which the file is saved). -/
inductive UploadOutcome where
  | invalidSourceType
  | typeMismatch
  | stored (st : SourceType)
deriving DecidableEq, Repr

/-- Model of the validation prefix of `upload_source`
(`upload.py`, lines 86-101). -/
def upload_source_validation (mime ext : Str) (source_type : Str) :
    UploadOutcome :=
  match sourceTypeOfString source_type with
  | none => .invalidSourceType
  | some st =>
      if validate_file_type mime ext st then .stored st else .typeMismatch

/-- C10: for every uploaded file (any MIME type, any extension),
`source_type="youtube"` passes the enum check (it is a recognized
`SourceType`) but validation then fails with the type-mismatch 400 — never
`invalidSourceType`, never `stored` — so the file is never saved. -/
theorem upload_youtube_always_type_mismatch (mime ext : Str) :
    sourceTypeOfString (lit "youtube") = some .youtube ∧
    upload_source_validation mime ext (lit "youtube") = .typeMismatch := by
  have h : sourceTypeOfString (lit "youtube") = some .youtube := by decide
  refine ⟨h, ?_⟩
  simp only [upload_source_validation, h]
  rfl

/-! ## TTS text chunking (`backend/app/services/google_tts.py`,
`video-api/app/services/audio_service.py`)

The two `_split_text` implementations are character-for-character identical
(google_tts.py lines 83-123, audio_service.py lines 29-69): if the text fits
the byte ceiling return it whole; otherwise mark sentence boundaries by
replacing `"! "`, `"? "`, `". "` with `"!|"`, `"?|"`, `".|"`, split on
`"|"`, and greedily pack stripped sentences into chunks.  A "sentence" that
alone exceeds the ceiling is kept whole. -/

/-- Python `text.replace(a + " ", a + "|")` for a single punctuation
character `a` (the exact patterns used by `_split_text`): left-to-right,
non-overlapping; since the replacement starts with the same character as
the pattern, this amounts to rewriting each matched `' '` to `'|'` and
skipping past the pair. -/
def replacePunct (a : Char) : Str → Str
  | [] => []
  | [c] => [c]
  | c :: d :: rest =>
      if c = a ∧ d = ' ' then c :: '|' :: replacePunct a rest
      else c :: replacePunct a (d :: rest)

/-- Python `s.split("|")` (non-empty separator, single character). -/
def splitOnBar : Str → List Str
  | [] => [[]]
  | c :: rest =>
      if c = '|' then [] :: splitOnBar rest
      else
        match splitOnBar rest with
        | [] => [[c]]
        | g :: gs => (c :: g) :: gs

/-- One iteration of the `for sentence in sentences` loop of `_split_text`
(google_tts.py, lines 104-117): skip empty stripped sentences; join the
stripped sentence onto the current chunk with a single space when the
result still fits `max_bytes`; otherwise flush the current chunk (when
non-empty) and start a new chunk with this sentence.  The accumulator is
`(chunks, current_chunk)`. -/
def splitChunksStep (maxBytes : Nat) :
    List Str × Str → Str → List Str × Str
  | (chunks, current), sentence =>
      if pyStrip sentence = [] then (chunks, current)
      else if utf8Len (if current ≠ [] then current ++ ' ' :: pyStrip sentence
          else pyStrip sentence) ≤ maxBytes then
        (chunks, if current ≠ [] then current ++ ' ' :: pyStrip sentence
                 else pyStrip sentence)
      else if current ≠ [] then (chunks ++ [current], pyStrip sentence)
      else (chunks, pyStrip sentence)

/-- Model of `_split_text(text, max_bytes=4500)`
(google_tts.py lines 83-123 = audio_service.py lines 29-69). -/
def split_text (text : Str) (maxBytes : Nat) : List Str :=
  if utf8Len text ≤ maxBytes then [text]
  else
    let sentences :=
      splitOnBar (replacePunct '.' (replacePunct '?' (replacePunct '!' text)))
    let packed := sentences.foldl (splitChunksStep maxBytes) ([], [])
    if packed.2 ≠ [] then packed.1 ++ [packed.2] else packed.1

theorem replacePunct_eq_self (a : Char) :
    ∀ l : Str, (∀ c ∈ l, c ≠ a) → replacePunct a l = l := by
  intro l
  induction l with
  | nil => intro _; rfl
  | cons c rest ih =>
      intro h
      cases rest with
      | nil => rfl
      | cons d rest2 =>
          have hc : ¬(c = a ∧ d = ' ') := by
            intro hca
            exact h c (by simp) hca.1
          show (if c = a ∧ d = ' ' then c :: '|' :: replacePunct a rest2
                else c :: replacePunct a (d :: rest2)) = c :: d :: rest2
          rw [if_neg hc, ih (fun x hx => h x (by simp [hx]))]

theorem splitOnBar_no_bar :
    ∀ l : Str, '|' ∉ l → splitOnBar l = [l] := by
  intro l
  induction l with
  | nil => intro _; rfl
  | cons c rest ih =>
      intro h
      have hc : ¬(c = '|') := fun hc => h (by simp [hc])
      show (if c = '|' then [] :: splitOnBar rest
            else match splitOnBar rest with
                 | [] => [[c]]
                 | g :: gs => (c :: g) :: gs) = [c :: rest]
      rw [if_neg hc, ih (fun hm => h (by simp [hm]))]

theorem utf8Len_replicate_a (n : Nat) :
    utf8Len (List.replicate n 'a') = n := by
  unfold utf8Len
  rw [List.map_replicate]
  have : Char.utf8Size 'a' = 1 := by decide
  rw [this, List.sum_replicate, smul_eq_mul, Nat.mul_one]

theorem pyStrip_replicate_a (n : Nat) :
    pyStrip (List.replicate (n + 1) 'a') = List.replicate (n + 1) 'a' := by
  have hd : List.dropWhile isPySpace (List.replicate (n + 1) 'a') =
      List.replicate (n + 1) 'a' := by
    rw [List.replicate_succ, List.dropWhile_cons_of_neg (by decide),
      ← List.replicate_succ]
  unfold pyStrip
  rw [hd, List.reverse_replicate, hd, List.reverse_replicate]

theorem replicate_a_ne_nil (n : Nat) :
    (List.replicate (n + 1) 'a' : Str) ≠ [] := by
  intro h
  have := congrArg List.length h
  simp at this

theorem split_text_oversized_single (T : Str) (maxB : Nat)
    (hgt : maxB < utf8Len T)
    (hnp : replacePunct '.' (replacePunct '?' (replacePunct '!' T)) = T)
    (hbar : '|' ∉ T)
    (hstrip : pyStrip T = T) (hT : T ≠ []) :
    split_text T maxB = [T] := by
  have hstep : splitChunksStep maxB ([], []) T = ([], T) := by
    have h2 : ¬(utf8Len T ≤ maxB) := by omega
    simp [splitChunksStep, hstrip, hT, h2]
  have hfold : List.foldl (splitChunksStep maxB) ([], []) [T] = ([], T) := by
    rw [List.foldl_cons, hstep, List.foldl_nil]
  unfold split_text
  rw [if_neg (by omega)]
  rw [hnp, splitOnBar_no_bar _ hbar]
  show (if (List.foldl (splitChunksStep maxB) ([], []) [T]).2 ≠ [] then
      (List.foldl (splitChunksStep maxB) ([], []) [T]).1 ++
        [(List.foldl (splitChunksStep maxB) ([], []) [T]).2]
    else (List.foldl (splitChunksStep maxB) ([], []) [T]).1) = [T]
  rw [hfold]
  simp [hT]

/-- C7: evaluation of `_split_text` at a 4501-byte text with no
sentence-ending punctuation (4501 repetitions of `'a'`) and the default
ceiling `max_bytes = 4500`: the whole text comes back as a single chunk
whose UTF-8 length is 4501, exceeding the ceiling — contradicting the
docstring "Split text into chunks that are under the byte limit" and the
claimed bound. -/
theorem split_text_unpunctuated_oversized :
    split_text (List.replicate 4501 'a') 4500 = [List.replicate 4501 'a'] ∧
    4500 < utf8Len (List.replicate 4501 'a') := by
  have hlen : utf8Len (List.replicate 4501 'a') = 4501 :=
    utf8Len_replicate_a 4501
  have hall : ∀ p : Char, p ≠ 'a' →
      ∀ c ∈ (List.replicate 4501 'a' : Str), c ≠ p := by
    intro p hp c hc
    rw [List.eq_of_mem_replicate hc]
    exact fun h => hp h.symm
  have hrep : replacePunct '.' (replacePunct '?'
      (replacePunct '!' (List.replicate 4501 'a'))) =
      List.replicate 4501 'a' := by
    rw [replacePunct_eq_self '!' _ (hall '!' (by decide)),
      replacePunct_eq_self '?' _ (hall '?' (by decide)),
      replacePunct_eq_self '.' _ (hall '.' (by decide))]
  have hbar : ('|' : Char) ∉ (List.replicate 4501 'a' : Str) := by
    intro hm
    exact absurd (List.eq_of_mem_replicate hm) (by decide)
  have hT : (List.replicate 4501 'a' : Str) ≠ [] := by
    intro h
    have h2 := congrArg List.length h
    rw [List.length_replicate, List.length_nil] at h2
    exact absurd h2 (by norm_num)
  have hstrip : pyStrip (List.replicate 4501 'a') =
      List.replicate 4501 'a' := by
    have := pyStrip_replicate_a 4500
    norm_num at this
    exact this
  exact ⟨split_text_oversized_single _ 4500 (by omega) hrep hbar hstrip hT,
    by omega⟩

/-! ## JSON parsing (model of Python `json.loads`)

The snippet extractors' parsing contract depends on whether `json.loads`
accepts a string.  `jsonLoads` below is a recursive-descent model of the
strict `json.loads` grammar (RFC 8259 as implemented by Python's `json`
module): values are objects, arrays, strings with escapes, numbers
(`-?(0|[1-9]\d*)(\.\d+)?([eE][+-]?\d+)?`), `true`/`false`/`null`;
whitespace is space/tab/newline/carriage-return; unescaped control
characters in strings are rejected; trailing data after the top-level value
is rejected.  (Python's `NaN`/`Infinity` extensions and surrogate-pair
combining for `\u` escapes are not modelled; no input in the claims uses
them.)  Mutual recursion is bounded by a fuel that the top-level entry
oversupplies, so fuel exhaustion is unreachable for any input. -/

/-- Parsed JSON values.  Numbers keep their syntactic parts (sign, integer
part, fraction digits, optional exponent). -/
inductive PyJson where
  | null
  | bool (b : Bool)
  | num (neg : Bool) (intPart : Nat) (fracDigits : List Nat)
      (expPart : Option Int)
  | str (s : Str)
  | arr (elems : List PyJson)
  | obj (fields : List (Str × PyJson))

/-- JSON whitespace (`' '`, `'\t'`, `'\n'`, `'\r'`). -/
def isJsonWs (c : Char) : Bool :=
  c = ' ' ∨ c = '\t' ∨ c = '\n' ∨ c = '\x0d'

/-- Value of one string-escape character, `none` for an invalid escape. -/
def jsonEscChar (e : Char) : Option Char :=
  if e = '\x22' then some '\x22'
  else if e = '\\' then some '\\'
  else if e = '/' then some '/'
  else if e = 'b' then some '\x08'
  else if e = 'f' then some '\x0c'
  else if e = 'n' then some '\n'
  else if e = 'r' then some '\x0d'
  else if e = 't' then some '\t'
  else none

/-- Value of a hexadecimal digit, `none` otherwise. -/
def hexVal (c : Char) : Option Nat :=
  if '0' ≤ c ∧ c ≤ '9' then some (c.toNat - '0'.toNat)
  else if 'a' ≤ c ∧ c ≤ 'f' then some (c.toNat - 'a'.toNat + 10)
  else if 'A' ≤ c ∧ c ≤ 'F' then some (c.toNat - 'A'.toNat + 10)
  else none

/-- JSON string body parser, positioned after the opening quote; returns the
decoded characters and the remainder after the closing quote. -/
def parseJsonString : Str → Option (Str × Str)
  | [] => none
  | '\x22' :: rest => some ([], rest)
  | '\\' :: 'u' :: h1 :: h2 :: h3 :: h4 :: rest =>
      match hexVal h1, hexVal h2, hexVal h3, hexVal h4 with
      | some a, some b, some c, some d =>
          (parseJsonString rest).map
            (fun p => (Char.ofNat (((a * 16 + b) * 16 + c) * 16 + d) :: p.1,
              p.2))
      | _, _, _, _ => none
  | '\\' :: e :: rest =>
      match jsonEscChar e with
      | some c => (parseJsonString rest).map (fun p => (c :: p.1, p.2))
      | none => none
  | c :: rest =>
      if c.toNat < 32 then none
      else (parseJsonString rest).map (fun p => (c :: p.1, p.2))

/-- Numeric value of a list of decimal digit characters. -/
def natFromDigits (ds : List Char) : Nat :=
  ds.foldl (fun n c => n * 10 + (c.toNat - '0'.toNat)) 0

/-- JSON number parser following the `json` module's number regex: the
integer part is `0` or starts with a nonzero digit; fraction and exponent
groups are consumed only when complete (an incomplete group is simply not
consumed, as with a regex match). -/
def parseJsonNumber (s : Str) : Option (PyJson × Str) :=
  let signed : Bool × Str := match s with
    | '-' :: r => (true, r)
    | _ => (false, s)
  let ipart : Str × Str := match signed.2 with
    | '0' :: r => (['0'], r)
    | _ => signed.2.span (fun c => c.isDigit)
  if ipart.1 = [] then none
  else
    let fr : List Char × Str := match ipart.2 with
      | '.' :: r =>
          match r.span (fun c => c.isDigit) with
          | ([], _) => ([], ipart.2)
          | (fs, r2) => (fs, r2)
      | _ => ([], ipart.2)
    let ex : Option Int × Str := match fr.2 with
      | e :: r =>
          if e = 'e' ∨ e = 'E' then
            match r with
            | '+' :: r2 =>
                match r2.span (fun c => c.isDigit) with
                | ([], _) => (none, fr.2)
                | (es, r3) => (some ((natFromDigits es : Nat) : Int), r3)
            | '-' :: r2 =>
                match r2.span (fun c => c.isDigit) with
                | ([], _) => (none, fr.2)
                | (es, r3) => (some (-((natFromDigits es : Nat) : Int)), r3)
            | _ =>
                match r.span (fun c => c.isDigit) with
                | ([], _) => (none, fr.2)
                | (es, r3) => (some ((natFromDigits es : Nat) : Int), r3)
          else (none, fr.2)
      | [] => (none, fr.2)
    some (.num signed.1 (natFromDigits ipart.1) (fr.1.map
      (fun c => c.toNat - '0'.toNat)) ex.1, ex.2)

mutual

/-- JSON value parser: skip whitespace, then dispatch on the first
character. -/
def parseJsonValue : Nat → Str → Option (PyJson × Str)
  | 0, _ => none
  | fuel + 1, s =>
      match s.dropWhile isJsonWs with
      | 'n' :: 'u' :: 'l' :: 'l' :: rest => some (.null, rest)
      | 't' :: 'r' :: 'u' :: 'e' :: rest => some (.bool true, rest)
      | 'f' :: 'a' :: 'l' :: 's' :: 'e' :: rest => some (.bool false, rest)
      | '\x22' :: rest =>
          (parseJsonString rest).map (fun p => (.str p.1, p.2))
      | '[' :: rest =>
          match rest.dropWhile isJsonWs with
          | ']' :: r => some (.arr [], r)
          | _ => (parseJsonArrayItems fuel rest).map
              (fun p => (.arr p.1, p.2))
      | '\x7b' :: rest =>
          match rest.dropWhile isJsonWs with
          | '\x7d' :: r => some (.obj [], r)
          | _ => (parseJsonObjectItems fuel rest).map
              (fun p => (.obj p.1, p.2))
      | c :: rest =>
          if c = '-' ∨ c.isDigit then parseJsonNumber (c :: rest) else none
      | [] => none

/-- Non-empty array tail: parse a value, then a comma and more items or the
closing bracket. -/
def parseJsonArrayItems : Nat → Str → Option (List PyJson × Str)
  | 0, _ => none
  | fuel + 1, s =>
      match parseJsonValue fuel s with
      | none => none
      | some (v, r) =>
          match r.dropWhile isJsonWs with
          | ',' :: r2 =>
              (parseJsonArrayItems fuel r2).map (fun p => (v :: p.1, p.2))
          | ']' :: r2 => some ([v], r2)
          | _ => none

/-- Non-empty object tail: parse a quoted key, a colon, a value, then a
comma and more members or the closing brace. -/
def parseJsonObjectItems : Nat → Str → Option (List (Str × PyJson) × Str)
  | 0, _ => none
  | fuel + 1, s =>
      match s.dropWhile isJsonWs with
      | '\x22' :: rest =>
          match parseJsonString rest with
          | none => none
          | some (key, r1) =>
              match r1.dropWhile isJsonWs with
              | ':' :: r2 =>
                  match parseJsonValue fuel r2 with
                  | none => none
                  | some (v, r3) =>
                      match r3.dropWhile isJsonWs with
                      | ',' :: r4 =>
                          (parseJsonObjectItems fuel r4).map
                            (fun p => ((key, v) :: p.1, p.2))
                      | '\x7d' :: r4 => some ([(key, v)], r4)
                      | _ => none
              | _ => none
      | _ => none

end

/-- Model of `json.loads`: parse one value (with ample fuel — every mutual
call consumes at least one input character, so `2*|s| + 2` units can never
run out), then require only whitespace to remain. -/
def jsonLoads (s : Str) : Option PyJson :=
  match parseJsonValue (2 * s.length + 2) s with
  | some (v, rest) => if rest.dropWhile isJsonWs = [] then some v else none
  | none => none

/-! ## Snippet-extraction response parsing
(`video-api/app/services/snippet_extractor.py`,
`backend/app/services/snippet_extractor.py`)

Both files define `_parse_json_response` with the same fenced-code-block
extraction; only the backend file's version carries the quote/bracket repair
retry (lines 50-65).  The backend's schema-constrained `extract_snippets`
does not call it: it parses with a bare `json.loads(response.text)`
(line 153). -/

/-- First index at which `sub` occurs in the scanned list, if any. -/
def findSub (sub : Str) : Str → Option Nat
  | [] => if sub = [] then some 0 else none
  | c :: rest =>
      if sub.isPrefixOf (c :: rest) then some 0
      else (findSub sub rest).map (· + 1)

/-- Python `s.find(sub)`: first index or `-1`. -/
def pyFind (s sub : Str) : Int :=
  match findSub sub s with
  | some i => (i : Int)
  | none => -1

/-- Python `s.find(sub, start)`: first index at or after `start`, or `-1`. -/
def pyFindFrom (s sub : Str) (start : Nat) : Int :=
  match findSub sub (s.drop start) with
  | some i => ((start + i : Nat) : Int)
  | none => -1

/-- Python slice `s[a:b]` with a non-negative `a` and a possibly negative
`b` (negative indices count from the end, clamped at 0). -/
def pySlice (s : Str) (a : Nat) (b : Int) : Str :=
  let bEff : Nat := if b < 0 then s.length - (-b).toNat
                    else min b.toNat s.length
  (s.take bEff).drop a

/-- Fenced-code-block extraction shared by every `_parse_json_response`
(video-api snippet_extractor.py lines 33-42 = backend lines 33-42): prefer
the region after a ` ```json ` fence, then after any ` ``` ` fence, else the
whole text; always stripped.  (An unterminated fence makes `find` return
`-1`, so the Python slice drops the final character — `pySlice` reproduces
that.) -/
def extractJsonStr (t : Str) : Str :=
  if strContains (lit "```json") t then
    pyStrip (pySlice t (pyFind t (lit "```json") + 7).toNat
      (pyFindFrom t (lit "```") (pyFind t (lit "```json") + 7).toNat))
  else if strContains (lit "```") t then
    pyStrip (pySlice t (pyFind t (lit "```") + 3).toNat
      (pyFindFrom t (lit "```") (pyFind t (lit "```") + 3).toNat))
  else pyStrip t

/-- Model of the video-api (unconstrained variant's)
`SnippetExtractor._parse_json_response` (lines 30-48): extraction followed
by a single `json.loads`; a decode failure raises immediately. -/
def videoapi_parse_json_response (t : Str) : Option PyJson :=
  jsonLoads (extractJsonStr t)

/-- Model of the backend file's `SnippetExtractor._parse_json_response`
(lines 30-65): on decode failure, append `'"'` when the quote count is odd,
then `']'` when brackets are unbalanced, then `'}'` when braces are
unbalanced, and retry the parse exactly once. -/
def backend_parse_json_response (t : Str) : Option PyJson :=
  let json_str := extractJsonStr t
  match jsonLoads json_str with
  | some v => some v
  | none =>
      let j1 := if json_str.count '\x22' % 2 ≠ 0 then json_str ++ ['\x22']
                else json_str
      let j2 := if j1.count ']' < j1.count '[' then j1 ++ [']'] else j1
      let j3 := if j2.count '\x7d' < j2.count '\x7b' then j2 ++ ['\x7d']
                else j2
      jsonLoads j3

/-- Model of the parse step actually used by the backend's
schema-constrained `extract_snippets` (line 153):
`json.loads(response.text)` with no extraction and no recovery. -/
def backend_schema_parse (t : Str) : Option PyJson :=
  jsonLoads t

/-- Truncated model response `{"a": [1` — `json.loads` rejects it, and the
backend repair (append `']'` then `'}'`) makes it parse. -/
def exC9 : Str := ['\x7b', '\x22', 'a', '\x22', ':', ' ', '[', '1']

/-- The repair of `exC9`: `{"a": [1]}`. -/
def exC9fixed : Str := exC9 ++ [']', '\x7d']

/-- C9 counterexample: on the truncated response `{"a": [1` the
unconstrained (video-api) implementation fails with no repair attempt —
even though the backend file's repair logic recovers exactly this input —
refuting the claim that the unconstrained implementation repairs and
retries. -/
theorem videoapi_parse_no_repair :
    videoapi_parse_json_response exC9 = none ∧
    backend_parse_json_response exC9 =
      some (.obj [(['a'], .arr [.num false 1 [] none])]) :=
  ⟨rfl, rfl⟩

/-- C9 (amended): decode failure is fatal in BOTH the schema-constrained
backend extract path (bare `json.loads`) and the unconstrained video-api
implementation (single parse after extraction, as the `{"a": [1` evaluation
shows); the quote/bracket best-effort repair with its single retry lives
only in the backend file's `_parse_json_response` helper; whenever the
first parse succeeds, the repairing and non-repairing parsers agree. -/
theorem parse_json_recovery_location :
    videoapi_parse_json_response exC9 = none ∧
    backend_schema_parse exC9 = none ∧
    backend_parse_json_response exC9 =
      some (.obj [(['a'], .arr [.num false 1 [] none])]) ∧
    (∀ (t : Str) (v : PyJson), jsonLoads (extractJsonStr t) = some v →
      videoapi_parse_json_response t = some v ∧
      backend_parse_json_response t = some v) := by
  refine ⟨rfl, rfl, rfl, ?_⟩
  intro t v h
  constructor
  · simpa [videoapi_parse_json_response] using h
  · simp [backend_parse_json_response, h]

/-- Witness for C9 (amended) at the concrete parseable input `{"a": [1]}`. -/
theorem parse_json_recovery_location_witness :
    jsonLoads (extractJsonStr exC9fixed) =
      some (.obj [(['a'], .arr [.num false 1 [] none])]) ∧
    (videoapi_parse_json_response exC9fixed =
      some (.obj [(['a'], .arr [.num false 1 [] none])]) ∧
     backend_parse_json_response exC9fixed =
      some (.obj [(['a'], .arr [.num false 1 [] none])])) :=
  ⟨rfl, parse_json_recovery_location.2.2.2 exC9fixed
    (.obj [(['a'], .arr [.num false 1 [] none])]) rfl⟩

end AgiHack
